import Mathlib

/-!
Verification of the ColorfulTodo core (`app.js`): the `Task` model, the
`TaskStore` persistence layer over `localStorage`, the `renderTasks`
filter/search computation and the delegated edit handler.

Modelling conventions (shallow embedding of the JavaScript source):

* JavaScript runtime values that flow through this code are modelled by
  `JSVal` (undefined, null, booleans, numbers, strings, arrays, plain
  objects).  Numbers are modelled as `Int`: every id and index the claims
  touch is integral, and no arithmetic in the source can produce a
  non-integral or NaN value from integral inputs.
* `localStorage` holds at most one string under `STORAGE_KEY`.  The code
  never inspects that string itself: it only passes it to `JSON.parse`
  and tests its truthiness.  We therefore model the stored raw value by
  `Raw`: `Raw.json v` is a non-empty string that `JSON.parse` maps to the
  JSON value `v`, `Raw.malformed` a non-empty string on which
  `JSON.parse` throws, and `Raw.empty` the empty string `""` (which is
  falsy in JS, so the `if (!raw)` guard treats it like an absent value).
  `JSON.stringify` on the arrays produced by `save` yields a non-empty
  string that parses back to the same JSON value; the one discrepancy —
  `JSON.stringify` drops object keys whose value is `undefined`, while we
  keep the key with an `undefined` value — is observationally invisible here,
  because property access on the parsed object yields `undefined` in both
  cases.
* `console.error` / `console.warn` calls are modelled as a list of
  `JSLog` entries returned alongside the new storage state; only the
  first (template) argument of each call is recorded.
* `===` on the id positions is `strictEq`.  For primitive values it is
  value equality.  For arrays and objects JS compares references; every
  comparison site in the source compares a value freshly allocated by
  `JSON.parse` inside `load` against a caller-held value, and a fresh
  allocation is never reference-equal to anything pre-existing, so
  `strictEq` soundly returns `false` on arrays and objects.
-/

namespace Todo

/-- JavaScript runtime values, restricted to the shapes reachable in this
program (no functions; numbers as integers, see the header comment). -/
inductive JSVal where
  | undefined : JSVal
  | null : JSVal
  | bool (b : Bool) : JSVal
  | num (n : Int) : JSVal
  | str (s : String) : JSVal
  | arr (elems : List JSVal) : JSVal
  | obj (fields : List (String × JSVal)) : JSVal
deriving Repr

/-- JavaScript truthiness of a value. -/
def truthy : JSVal → Bool
  | .undefined => false
  | .null => false
  | .bool b => b
  | .num n => n != 0
  | .str s => !s.isEmpty
  | .arr _ => true
  | .obj _ => true

/-- JavaScript strict equality `===` for the values compared in this
program.  Arrays and objects compare by reference; every use site in the
source compares a freshly parsed value against a caller-held one, so the
result there is `false` (see header comment). -/
def strictEq : JSVal → JSVal → Bool
  | .undefined, .undefined => true
  | .null, .null => true
  | .bool a, .bool b => a == b
  | .num a, .num b => a == b
  | .str a, .str b => a == b
  | _, _ => false

mutual

/-- JavaScript `String(v)` conversion (used by template literals and by
`String(t.id)` in the event dispatcher). -/
def jsToString : JSVal → String
  | .undefined => "undefined"
  | .null => "null"
  | .bool b => if b then "true" else "false"
  | .num n => toString n
  | .str s => s
  | .arr elems => String.intercalate "," (jsToStringElems elems)
  | .obj _ => "[object Object]"

/-- Array elements under `Array.prototype.join(",")`: `null`/`undefined`
elements become the empty string, the rest stringify recursively. -/
def jsToStringElems : List JSVal → List String
  | [] => []
  | .undefined :: rest => "" :: jsToStringElems rest
  | .null :: rest => "" :: jsToStringElems rest
  | v :: rest => jsToString v :: jsToStringElems rest

end

/-- JavaScript property access `v[key]` for the values reachable here:
objects look the key up, everything else (that does not throw) yields
`undefined`.  Access on `null`/`undefined` throws; callers handle those
two constructors before calling `getField`. -/
def getField (v : JSVal) (key : String) : JSVal :=
  match v with
  | .obj fields =>
    match fields.lookup key with
    | some x => x
    | none => .undefined
  | _ => .undefined

/-- The `Task` model (`class Task`).  Field values are JS values: the
constructor does no validation, so `load` can produce tasks with
arbitrary field contents. -/
structure Task where
  id : JSVal
  text : JSVal
  completed : JSVal
deriving Repr

/-- `Task.prototype.serialize`: the plain `{id, text, completed}` record. -/
def Task.serialize (t : Task) : JSVal :=
  .obj [("id", t.id), ("text", t.text), ("completed", t.completed)]

/-- `Task.prototype.toggleComplete`: `this.completed = !this.completed`
(JS `!` is truthiness-based). -/
def Task.toggleComplete (t : Task) : Task :=
  ⟨t.id, t.text, .bool (!truthy t.completed)⟩

/-- A valid task in the sense of the spec's data model: an id that is a
string or a number, a string text, and a boolean completed flag. -/
def isValidTask (t : Task) : Bool :=
  (match t.id with
   | .num _ => true
   | .str _ => true
   | _ => false) &&
  (match t.text with
   | .str _ => true
   | _ => false) &&
  (match t.completed with
   | .bool _ => true
   | _ => false)

/-- The raw string persisted under `STORAGE_KEY`, abstracted by how the
code can observe it: its truthiness and its `JSON.parse` outcome. -/
inductive Raw where
  | json (v : JSVal) : Raw
  | malformed : Raw
  | empty : Raw
deriving Repr

/-- The `localStorage` slot for `STORAGE_KEY`: `none` is an absent key
(`getItem` returns `null`). -/
abbrev Storage := Option Raw

/-- A recorded `console` call (first argument only). -/
inductive JSLog where
  | error (msg : String) : JSLog
  | warn (msg : String) : JSLog
deriving Repr, DecidableEq

/-- The message of the `console.error` in `load`'s catch block. -/
def parseErrMsg : String := "Failed to parse tasks from localStorage:"

/-- `new Task(item.id, item.text, item.completed)` applies the default
parameter `completed = false` exactly when the passed value is
`undefined`. -/
def defaultCompleted : JSVal → JSVal
  | .undefined => .bool false
  | v => v

/-- One step of `data.map(item => new Task(item.id, item.text,
item.completed))`: property access on a `null`/`undefined` item throws a
`TypeError` (propagated to `load`'s catch block), modelled as `none`. -/
def taskOfItem : JSVal → Option Task
  | .undefined => none
  | .null => none
  | v => some ⟨getField v "id", getField v "text", defaultCompleted (getField v "completed")⟩

/-- The whole `data.map(...)` call: `none` if any element throws. -/
def tasksOfData : List JSVal → Option (List Task)
  | [] => some []
  | item :: rest =>
    match taskOfItem item, tasksOfData rest with
    | some t, some ts => some (t :: ts)
    | _, _ => none

namespace TaskStore

/-- `TaskStore.load`: absent or falsy (empty-string) raw value yields
`[]` without parsing; a parse failure (malformed JSON, or a `TypeError`
thrown while mapping the items) is caught, logged via `console.error`,
and yields `[]`; a parsed non-array yields `[]` with no log. -/
def load (st : Storage) : List Task × List JSLog :=
  match st with
  | none => ([], [])
  | some .empty => ([], [])
  | some .malformed => ([], [.error parseErrMsg])
  | some (.json (.arr items)) =>
    match tasksOfData items with
    | some ts => (ts, [])
    | none => ([], [.error parseErrMsg])
  | some (.json _) => ([], [])

/-- The task list `load` returns (ignoring logs). -/
def loadTasks (st : Storage) : List Task := (load st).1

/-- `TaskStore.save`: serialize every task and store the JSON-encoded
array.  The write itself cannot fail in this model (quota errors are an
environment effect outside the embedding). -/
def save (tasks : List Task) : Storage :=
  some (.json (.arr (tasks.map Task.serialize)))

/-- `TaskStore.add`: load, push, save. -/
def add (st : Storage) (task : Task) : Storage × List JSLog :=
  let r := load st
  (save (r.1 ++ [task]), r.2)

/-- `TaskStore.update`: load, `findIndex(t => t.id === task.id)`,
replace at that index and save, else warn and leave storage untouched. -/
def update (st : Storage) (task : Task) : Storage × List JSLog :=
  let r := load st
  match r.1.findIdx? (fun t => strictEq t.id task.id) with
  | some i => (save (r.1.set i task), r.2)
  | none =>
    (st, r.2 ++ [.warn ("Task with id " ++ jsToString task.id ++ " not found for update.")])

/-- `TaskStore.delete`: load, `filter(t => t.id !== id)`, save only if
the length shrank, else warn. -/
def delete (st : Storage) (id : JSVal) : Storage × List JSLog :=
  let r := load st
  let filtered := r.1.filter (fun t => !strictEq t.id id)
  if filtered.length ≠ r.1.length then
    (save filtered, r.2)
  else
    (st, r.2 ++ [.warn ("Task with id " ++ jsToString id ++ " not found for deletion.")])

/-- `tasks.splice(n, 1)` at a valid index: remove the element at `n`. -/
def spliceRemove (l : List Task) (n : Nat) : List Task :=
  l.take n ++ l.drop (n + 1)

/-- `tasks.splice(n, 0, a)`: insert `a` at index `n` (clamped to the
length, i.e. appended when `n` is the length). -/
def spliceInsert (l : List Task) (n : Nat) (a : Task) : List Task :=
  l.take n ++ a :: l.drop n

/-- `TaskStore.reorder`: load, bounds-check both indices against the
freshly loaded list, splice the element out of `oldIndex` and back in at
`newIndex`, save; out-of-bounds indices warn and leave storage
untouched. -/
def reorder (st : Storage) (oldIndex newIndex : Int) : Storage × List JSLog :=
  let r := load st
  if oldIndex < 0 ∨ (r.1.length : Int) ≤ oldIndex ∨ newIndex < 0 ∨ (r.1.length : Int) ≤ newIndex then
    (st, r.2 ++ [.warn "Invalid reorder indices:"])
  else
    match r.1[oldIndex.toNat]? with
    | some moved => (save (spliceInsert (spliceRemove r.1 oldIndex.toNat) newIndex.toNat moved), r.2)
    | none => (st, r.2)

end TaskStore

/-!  Renderer / filter engine (`renderTasks`, lines 157–197) and the
delegated edit handler (`attachTaskListListeners`, lines 222–233). -/

/-- ASCII `String.prototype.toLowerCase` (the claims only exercise ASCII
text; `Char.toLower` lowers exactly the ASCII uppercase range). -/
def lowerStr (s : String) : String :=
  String.mk (s.data.map Char.toLower)

/-- `sub` is a prefix of `l`, on character lists. -/
def isPrefixCL : List Char → List Char → Bool
  | [], _ => true
  | _ :: _, [] => false
  | c :: cs, d :: ds => c == d && isPrefixCL cs ds

/-- `sub` occurs as a contiguous run inside `l`, on character lists. -/
def containsCL (l sub : List Char) : Bool :=
  isPrefixCL sub l ||
    match l with
    | [] => false
    | _ :: rest => containsCL rest sub

/-- JavaScript `String.prototype.includes` (the empty needle is found in
every string). -/
def strIncludes (s sub : String) : Bool :=
  containsCL s.data sub.data

/-- The `matchesFilter` conjunct of `renderTasks`' filter callback:
`filter === "all" || (filter === "active" && !task.completed) ||
(filter === "completed" && task.completed)` (JS `!`/`&&` read
`task.completed` by truthiness). -/
def matchesFilter (filter : String) (t : Task) : Bool :=
  filter == "all" ||
    (filter == "active" && !truthy t.completed) ||
    (filter == "completed" && truthy t.completed)

/-- One evaluation of `renderTasks`' filter callback on a task:
`task.text.toLowerCase()` throws a `TypeError` (modelled as `none`) when
the text is not a string; note the `matchesSearch` const is computed
unconditionally, before the `&&`. -/
def visibleStep (filter searchTerm : String) (t : Task) : Option Bool :=
  match t.text with
  | .str s => some (matchesFilter filter t && strIncludes (lowerStr s) (lowerStr searchTerm))
  | _ => none

/-- The `tasks.filter(...)` call of `renderTasks`: the visible subset, in
collection order; `none` when the callback throws on some task. -/
def visibleTasks (tasks : List Task) (filter searchTerm : String) : Option (List Task) :=
  match tasks with
  | [] => some []
  | t :: rest =>
    match visibleStep filter searchTerm t, visibleTasks rest filter searchTerm with
    | some true, some l => some (t :: l)
    | some false, some l => some l
    | _, _ => none

/-- Visibility as the spec's round-trip claim words it: the filter
predicate (`all` matches every task, `active` matches tasks with
completed false, `completed` matches tasks with completed true) AND a
case-insensitive substring match of the search term against the task's
text.  Stated from the claim, to be compared with `visibleTasks`. -/
def specVisible (filter searchTerm : String) (t : Task) : Bool :=
  (filter == "all" ||
      (filter == "active" && (match t.completed with | .bool b => !b | _ => false)) ||
      (filter == "completed" && (match t.completed with | .bool b => b | _ => false))) &&
    (match t.text with
     | .str s => strIncludes (lowerStr s) (lowerStr searchTerm)
     | _ => false)

/-- A character of the ECMAScript WhiteSpace / LineTerminator classes,
the set `String.prototype.trim` strips. -/
def jsWhitespaceChar (c : Char) : Bool :=
  c == ' ' || c == '\t' || c == '\n' || c == '\r' ||
    c == '\x0b' || c == '\x0c' || c == '\u00A0' || c == '\uFEFF' ||
    c == '\u1680' || ('\u2000' ≤ c && c ≤ '\u200A') ||
    c == '\u2028' || c == '\u2029' || c == '\u202F' || c == '\u205F' || c == '\u3000'

/-- `String.prototype.trim`: strip leading and trailing JS whitespace. -/
def jsTrim (s : String) : String :=
  String.mk (((s.data.dropWhile jsWhitespaceChar).reverse.dropWhile jsWhitespaceChar).reverse)

/-- What the edit branch of the delegated click handler leaves behind:
the (possibly mutated) task object, the storage state, whether
`renderTasks` was invoked again, and the console output. -/
structure EditOutcome where
  task : Task
  store : Storage
  rerendered : Bool
  logs : List JSLog
deriving Repr

/-- The edit branch (lines 222–233): `prompt` returns `null`
(cancellation, modelled `none`) or a string; a cancelled prompt changes
nothing; a result that trims to the empty string changes nothing;
otherwise `task.text = trimmed`, `TaskStore.update(task)`,
`renderTasks()`.  The `if (trimmed)` test is string truthiness. -/
def handleEdit (st : Storage) (task : Task) (promptResult : Option String) : EditOutcome :=
  match promptResult with
  | none => ⟨task, st, false, []⟩
  | some newText =>
    let trimmed := jsTrim newText
    if truthy (.str trimmed) then
      let edited := Task.mk task.id (.str trimmed) task.completed
      let r := TaskStore.update st edited
      ⟨edited, r.1, true, r.2⟩
    else
      ⟨task, st, false, []⟩

/-!  ## Helper lemmas -/

theorem defaultCompleted_of_ne (v : JSVal) (h : v ≠ JSVal.undefined) :
    defaultCompleted v = v := by
  cases v <;> first | exact absurd rfl h | rfl

theorem defaultCompleted_ne_undef (v : JSVal) : defaultCompleted v ≠ JSVal.undefined := by
  cases v <;> simp [defaultCompleted]

theorem taskOfItem_serialize (t : Task) (h : t.completed ≠ JSVal.undefined) :
    taskOfItem (Task.serialize t) = some t := by
  obtain ⟨i, x, c⟩ := t
  have hd : defaultCompleted c = c := defaultCompleted_of_ne c h
  simp [Task.serialize, taskOfItem, getField, hd, List.lookup]

theorem taskOfItem_completed (v : JSVal) (t : Task) (h : taskOfItem v = some t) :
    t.completed ≠ JSVal.undefined := by
  cases v <;> simp [taskOfItem] at h <;>
    (subst h; simpa using defaultCompleted_ne_undef _)

theorem tasksOfData_map_serialize (ts : List Task)
    (h : ∀ t ∈ ts, t.completed ≠ JSVal.undefined) :
    tasksOfData (ts.map Task.serialize) = some ts := by
  induction ts with
  | nil => rfl
  | cons t rest ih =>
    have ht : taskOfItem (Task.serialize t) = some t :=
      taskOfItem_serialize t (h t (by simp))
    have hr : tasksOfData (rest.map Task.serialize) = some rest :=
      ih (fun x hx => h x (by simp [hx]))
    simp [tasksOfData, ht, hr]

theorem tasksOfData_completed (items : List JSVal) (ts : List Task)
    (h : tasksOfData items = some ts) : ∀ t ∈ ts, t.completed ≠ JSVal.undefined := by
  induction items generalizing ts with
  | nil =>
    simp [tasksOfData] at h
    subst h; simp
  | cons item rest ih =>
    simp only [tasksOfData] at h
    cases hi : taskOfItem item with
    | none => rw [hi] at h; simp at h
    | some t0 =>
      cases hr : tasksOfData rest with
      | none => rw [hi, hr] at h; simp at h
      | some ts0 =>
        rw [hi, hr] at h
        simp at h
        subst h
        intro t ht
        rcases List.mem_cons.mp ht with h1 | h2
        · subst h1; exact taskOfItem_completed item t hi
        · exact ih ts0 hr t h2

theorem load_save (ts : List Task) (h : ∀ t ∈ ts, t.completed ≠ JSVal.undefined) :
    TaskStore.load (TaskStore.save ts) = (ts, []) := by
  simp [TaskStore.load, TaskStore.save, tasksOfData_map_serialize ts h]

theorem loadTasks_completed (st : Storage) :
    ∀ t ∈ TaskStore.loadTasks st, t.completed ≠ JSVal.undefined := by
  match st with
  | none => simp [TaskStore.loadTasks, TaskStore.load]
  | some .empty => simp [TaskStore.loadTasks, TaskStore.load]
  | some .malformed => simp [TaskStore.loadTasks, TaskStore.load]
  | some (.json v) =>
    cases v with
    | arr items =>
      cases hd : tasksOfData items with
      | none => simp [TaskStore.loadTasks, TaskStore.load, hd]
      | some ts =>
        simpa [TaskStore.loadTasks, TaskStore.load, hd] using tasksOfData_completed items ts hd
    | undefined => simp [TaskStore.loadTasks, TaskStore.load]
    | null => simp [TaskStore.loadTasks, TaskStore.load]
    | bool b => simp [TaskStore.loadTasks, TaskStore.load]
    | num n => simp [TaskStore.loadTasks, TaskStore.load]
    | str s => simp [TaskStore.loadTasks, TaskStore.load]
    | obj fields => simp [TaskStore.loadTasks, TaskStore.load]

theorem loadTasks_save (ts : List Task) (h : ∀ t ∈ ts, t.completed ≠ JSVal.undefined) :
    TaskStore.loadTasks (TaskStore.save ts) = ts := by
  simp [TaskStore.loadTasks, load_save ts h]

theorem valid_completed_ne_undef (t : Task) (h : isValidTask t = true) :
    t.completed ≠ JSVal.undefined := by
  obtain ⟨i, x, c⟩ := t
  cases c <;> simp_all [isValidTask]

theorem mem_spliceInsert_remove {l : List Task} {i j : Nat} {a t : Task}
    (ht : t ∈ TaskStore.spliceInsert (TaskStore.spliceRemove l i) j a) : t ∈ l ∨ t = a := by
  unfold TaskStore.spliceInsert TaskStore.spliceRemove at ht
  rcases List.mem_append.mp ht with h1 | h2
  · rcases List.mem_append.mp (List.mem_of_mem_take h1) with ha | hb
    · exact Or.inl (List.mem_of_mem_take ha)
    · exact Or.inl (List.mem_of_mem_drop hb)
  · rcases List.mem_cons.mp h2 with ha | hb
    · exact Or.inr ha
    · rcases List.mem_append.mp (List.mem_of_mem_drop hb) with ha | hb'
      · exact Or.inl (List.mem_of_mem_take ha)
      · exact Or.inl (List.mem_of_mem_drop hb')

/-!  ## Claim theorems -/

/-- C1: for every sequence of valid tasks (id a string or number, string
text, boolean completed), `TaskStore.save` followed by `TaskStore.load`
yields the same sequence — same ids, texts, completed flags, in the same
order — and `Task.serialize` is the exact inverse of the per-item
deserialization `load` performs. -/
theorem c1_save_load_roundtrip (ts : List Task)
    (h : ∀ t ∈ ts, isValidTask t = true) :
    TaskStore.loadTasks (TaskStore.save ts) = ts ∧
    ∀ t ∈ ts, taskOfItem (Task.serialize t) = some t := by
  have h' : ∀ t ∈ ts, t.completed ≠ JSVal.undefined :=
    fun t ht => valid_completed_ne_undef t (h t ht)
  exact ⟨loadTasks_save ts h', fun t ht => taskOfItem_serialize t (h' t ht)⟩

/-- C1 witness: the round-trip at a concrete two-task sequence. -/
theorem c1_save_load_roundtrip_witness :
    (∀ t ∈ [Task.mk (.num 1) (.str "buy milk") (.bool false),
            Task.mk (.str "x2") (.str "Walk dog") (.bool true)], isValidTask t = true) ∧
    TaskStore.loadTasks (TaskStore.save
        [Task.mk (.num 1) (.str "buy milk") (.bool false),
         Task.mk (.str "x2") (.str "Walk dog") (.bool true)]) =
      [Task.mk (.num 1) (.str "buy milk") (.bool false),
       Task.mk (.str "x2") (.str "Walk dog") (.bool true)] :=
  ⟨by decide,
   (c1_save_load_roundtrip
      [Task.mk (.num 1) (.str "buy milk") (.bool false),
       Task.mk (.str "x2") (.str "Walk dog") (.bool true)] (by decide)).1⟩

/-- C2 counterexample: the raw value `"{}"` (present, well-formed JSON,
but not an array — modelled as `Raw.json (JSVal.obj [])`) makes `load`
return the empty sequence with an **empty** log: the
`if (!Array.isArray(data)) return []` branch logs no diagnostic, contrary
to the claim that every present non-array raw value is logged. -/
theorem c2_nonarray_logs_nothing :
    TaskStore.load (some (Raw.json (JSVal.obj []))) = ([], []) := rfl

/-- C2 amended: `load` never fails its caller.  An absent raw value — or
the empty string, which the `!raw` guard treats the same way — yields the
empty sequence without logging; a raw value on which `JSON.parse` throws
yields the empty sequence and logs a diagnostic, as does an array whose
element mapping throws a `TypeError`; a raw value parsing to a non-array
yields the empty sequence **without** logging. -/
theorem c2_load_never_fails (st : Storage) :
    (st = none → TaskStore.load st = ([], [])) ∧
    (st = some Raw.empty → TaskStore.load st = ([], [])) ∧
    (st = some Raw.malformed → TaskStore.load st = ([], [JSLog.error parseErrMsg])) ∧
    (∀ v, st = some (Raw.json v) → (∀ items, v ≠ JSVal.arr items) →
      TaskStore.load st = ([], [])) ∧
    (∀ items, st = some (Raw.json (JSVal.arr items)) → tasksOfData items = none →
      TaskStore.load st = ([], [JSLog.error parseErrMsg])) := by
  refine ⟨?_, ?_, ?_, ?_, ?_⟩
  · intro h; subst h; rfl
  · intro h; subst h; rfl
  · intro h; subst h; rfl
  · intro v h hv; subst h
    cases v with
    | arr items => exact absurd rfl (hv items)
    | undefined => rfl
    | null => rfl
    | bool b => rfl
    | num n => rfl
    | str s => rfl
    | obj fields => rfl
  · intro items h hd; subst h
    simp [TaskStore.load, hd]

/-- C2 witness: the amended branches at concrete raw values. -/
theorem c2_load_never_fails_witness :
    TaskStore.load (some Raw.malformed) = ([], [JSLog.error parseErrMsg]) :=
  (c2_load_never_fails (some Raw.malformed)).2.2.1 rfl

/-- C6: `add` appends the given task to the freshly loaded collection and
saves the result, with no duplicate-id check: afterwards `load` returns
the previous collection with the task at the end, so a colliding id
leaves both entries persisted. -/
theorem c6_add_appends (st : Storage) (task : Task)
    (h : isValidTask task = true) :
    (TaskStore.add st task).1 = TaskStore.save (TaskStore.loadTasks st ++ [task]) ∧
    TaskStore.loadTasks (TaskStore.add st task).1 = TaskStore.loadTasks st ++ [task] := by
  constructor
  · rfl
  · have hmem : ∀ t ∈ TaskStore.loadTasks st ++ [task], t.completed ≠ JSVal.undefined := by
      intro t ht
      rcases List.mem_append.mp ht with h1 | h2
      · exact loadTasks_completed st t h1
      · have : t = task := by simpa using h2
        subst this
        exact valid_completed_ne_undef t h
    show TaskStore.loadTasks (TaskStore.save (TaskStore.loadTasks st ++ [task])) = _
    exact loadTasks_save _ hmem

/-- C6 witness: the spec's example — from a persisted empty collection,
adding `{id: 1, text: "buy milk", completed: false}` makes `load` return
exactly that one task; and a second add with the same id keeps both. -/
theorem c6_add_appends_witness :
    isValidTask (Task.mk (.num 1) (.str "buy milk") (.bool false)) = true ∧
    TaskStore.loadTasks
        (TaskStore.add (TaskStore.save []) (Task.mk (.num 1) (.str "buy milk") (.bool false))).1 =
      [Task.mk (.num 1) (.str "buy milk") (.bool false)] ∧
    TaskStore.loadTasks
        (TaskStore.add
          (TaskStore.add (TaskStore.save []) (Task.mk (.num 1) (.str "buy milk") (.bool false))).1
          (Task.mk (.num 1) (.str "other") (.bool false))).1 =
      [Task.mk (.num 1) (.str "buy milk") (.bool false),
       Task.mk (.num 1) (.str "other") (.bool false)] :=
  ⟨by decide,
   ((c6_add_appends (TaskStore.save [])
      (Task.mk (.num 1) (.str "buy milk") (.bool false)) (by decide)).2).trans (by rfl),
   ((c6_add_appends
      (TaskStore.add (TaskStore.save []) (Task.mk (.num 1) (.str "buy milk") (.bool false))).1
      (Task.mk (.num 1) (.str "other") (.bool false)) (by decide)).2).trans (by rfl)⟩

/-- C3: `update` with an id matching no persisted task (per `===`, the
comparison `findIndex` uses) leaves the persisted state unchanged and
logs a warning; with a matching id it replaces the task at the found
index and saves the collection. -/
theorem c3_update_noop_or_replace (st : Storage) (task : Task) :
    ((∀ t ∈ TaskStore.loadTasks st, strictEq t.id task.id = false) →
      (TaskStore.update st task).1 = st ∧
      JSLog.warn ("Task with id " ++ jsToString task.id ++ " not found for update.") ∈
        (TaskStore.update st task).2) ∧
    (∀ i, (TaskStore.loadTasks st).findIdx? (fun t => strictEq t.id task.id) = some i →
      (TaskStore.update st task).1 = TaskStore.save ((TaskStore.loadTasks st).set i task)) := by
  constructor
  · intro h
    have hnone : (TaskStore.load st).1.findIdx? (fun t => strictEq t.id task.id) = none :=
      List.findIdx?_eq_none_iff.mpr h
    simp [TaskStore.update, hnone]
  · intro i hi
    have hi' : (TaskStore.load st).1.findIdx? (fun t => strictEq t.id task.id) = some i := hi
    simp [TaskStore.update, hi']
    rfl

/-- C3 witness: updating id 99 against a store holding only id 1 is a
logged no-op; updating id 1 replaces index 0. -/
theorem c3_update_noop_or_replace_witness :
    (∀ t ∈ TaskStore.loadTasks (TaskStore.save [Task.mk (.num 1) (.str "A") (.bool false)]),
        strictEq t.id (Task.mk (.num 99) (.str "X") (.bool false)).id = false) ∧
    (TaskStore.update (TaskStore.save [Task.mk (.num 1) (.str "A") (.bool false)])
        (Task.mk (.num 99) (.str "X") (.bool false))).1 =
      TaskStore.save [Task.mk (.num 1) (.str "A") (.bool false)] ∧
    (TaskStore.update (TaskStore.save [Task.mk (.num 1) (.str "A") (.bool false)])
        (Task.mk (.num 1) (.str "B") (.bool true))).1 =
      TaskStore.save
        ((TaskStore.loadTasks (TaskStore.save [Task.mk (.num 1) (.str "A") (.bool false)])).set 0
          (Task.mk (.num 1) (.str "B") (.bool true))) :=
  ⟨by decide,
   ((c3_update_noop_or_replace (TaskStore.save [Task.mk (.num 1) (.str "A") (.bool false)])
      (Task.mk (.num 99) (.str "X") (.bool false))).1 (by decide)).1,
   (c3_update_noop_or_replace (TaskStore.save [Task.mk (.num 1) (.str "A") (.bool false)])
      (Task.mk (.num 1) (.str "B") (.bool true))).2 0 (by decide)⟩

/-- C9: `update`/`delete` compare ids with `===` and never coerce: on a
store containing a task whose id is the number `n` and none whose id is
the string form of `n`, `delete` of the string form removes nothing,
leaves the persisted state unchanged, and warns; `update` with a task
carrying the string-form id takes the not-found branch. -/
theorem c9_no_string_coercion (st : Storage) (n : Int) (task : Task)
    (h1 : (TaskStore.loadTasks st).any (fun t => strictEq t.id (JSVal.num n)) = true)
    (h2 : ∀ t ∈ TaskStore.loadTasks st,
      strictEq t.id (JSVal.str (jsToString (JSVal.num n))) = false)
    (h3 : task.id = JSVal.str (jsToString (JSVal.num n))) :
    (TaskStore.delete st (JSVal.str (jsToString (JSVal.num n)))).1 = st ∧
    JSLog.warn ("Task with id " ++ jsToString (JSVal.str (jsToString (JSVal.num n))) ++
        " not found for deletion.") ∈
      (TaskStore.delete st (JSVal.str (jsToString (JSVal.num n)))).2 ∧
    (TaskStore.update st task).1 = st ∧
    JSLog.warn ("Task with id " ++ jsToString task.id ++ " not found for update.") ∈
      (TaskStore.update st task).2 := by
  have hfilter : (TaskStore.load st).1.filter
      (fun t => !strictEq t.id (JSVal.str (jsToString (JSVal.num n)))) = (TaskStore.load st).1 :=
    List.filter_eq_self.mpr (fun t ht => by simpa using h2 t ht)
  have hdel : (TaskStore.delete st (JSVal.str (jsToString (JSVal.num n)))) =
      (st, (TaskStore.load st).2 ++
        [JSLog.warn ("Task with id " ++ jsToString (JSVal.str (jsToString (JSVal.num n))) ++
          " not found for deletion.")]) := by
    simp [TaskStore.delete, hfilter]
  have hnone : (TaskStore.load st).1.findIdx? (fun t => strictEq t.id task.id) = none := by
    refine List.findIdx?_eq_none_iff.mpr (fun t ht => ?_)
    rw [h3]
    exact h2 t ht
  have hupd : (TaskStore.update st task) =
      (st, (TaskStore.load st).2 ++
        [JSLog.warn ("Task with id " ++ jsToString task.id ++ " not found for update.")]) := by
    simp [TaskStore.update, hnone]
  refine ⟨by rw [hdel], by rw [hdel]; simp, by rw [hupd], by rw [hupd]; simp⟩

/-- C9 witness: a store holding the numeric id 1; deleting the string id
`"1"` and updating with the string id `"1"` are both no-ops. -/
theorem c9_no_string_coercion_witness :
    ((TaskStore.loadTasks (TaskStore.save [Task.mk (.num 1) (.str "A") (.bool false)])).any
        (fun t => strictEq t.id (JSVal.num 1)) = true) ∧
    (TaskStore.delete (TaskStore.save [Task.mk (.num 1) (.str "A") (.bool false)])
        (JSVal.str (jsToString (JSVal.num 1)))).1 =
      TaskStore.save [Task.mk (.num 1) (.str "A") (.bool false)] ∧
    (TaskStore.update (TaskStore.save [Task.mk (.num 1) (.str "A") (.bool false)])
        (Task.mk (.str (jsToString (JSVal.num 1))) (.str "X") (.bool false))).1 =
      TaskStore.save [Task.mk (.num 1) (.str "A") (.bool false)] := by
  have h := c9_no_string_coercion (TaskStore.save [Task.mk (.num 1) (.str "A") (.bool false)]) 1
    (Task.mk (.str (jsToString (JSVal.num 1))) (.str "X") (.bool false))
    (by decide) (by decide) rfl
  exact ⟨by decide, h.1, h.2.2.1⟩

/-- C10: when the persisted collection holds several tasks sharing an id,
`update` replaces exactly the first occurrence (lowest index) with the
given task; the persisted result is the old collection with only that
index overwritten. -/
theorem c10_update_replaces_first (st : Storage) (task : Task) (i : Nat)
    (hvalid : isValidTask task = true)
    (hi : i < (TaskStore.loadTasks st).length)
    (hmatch : strictEq ((TaskStore.loadTasks st).get ⟨i, hi⟩).id task.id = true)
    (hbefore : ∀ j (hj : j < i),
      strictEq ((TaskStore.loadTasks st).get ⟨j, Nat.lt_trans hj hi⟩).id task.id = false) :
    TaskStore.loadTasks (TaskStore.update st task).1 =
      (TaskStore.loadTasks st).set i task := by
  have hsome : (TaskStore.loadTasks st).findIdx? (fun t => strictEq t.id task.id) = some i := by
    refine List.findIdx?_eq_some_iff_getElem.mpr ⟨hi, by simpa using hmatch, ?_⟩
    intro j hj
    simpa using hbefore j hj
  have hupd : (TaskStore.update st task).1 =
      TaskStore.save ((TaskStore.loadTasks st).set i task) := by
    have hi' : (TaskStore.load st).1.findIdx? (fun t => strictEq t.id task.id) = some i := hsome
    simp [TaskStore.update, hi']
    rfl
  rw [hupd]
  refine loadTasks_save _ (fun t ht => ?_)
  rcases List.mem_or_eq_of_mem_set ht with h1 | h2
  · exact loadTasks_completed st t h1
  · subst h2
    exact valid_completed_ne_undef t hvalid

/-- C10 witness: two persisted tasks share id 1; update replaces only the
first, the duplicate keeps its content and position. -/
theorem c10_update_replaces_first_witness :
    TaskStore.loadTasks
        (TaskStore.update
          (TaskStore.save [Task.mk (.num 1) (.str "A") (.bool false),
                           Task.mk (.num 1) (.str "B") (.bool true)])
          (Task.mk (.num 1) (.str "New") (.bool false))).1 =
      [Task.mk (.num 1) (.str "New") (.bool false),
       Task.mk (.num 1) (.str "B") (.bool true)] :=
  (c10_update_replaces_first
      (TaskStore.save [Task.mk (.num 1) (.str "A") (.bool false),
                       Task.mk (.num 1) (.str "B") (.bool true)])
      (Task.mk (.num 1) (.str "New") (.bool false)) 0
      (by decide) (by decide) (by decide)
      (fun j hj => absurd hj (Nat.not_lt_zero j))).trans (by rfl)

/-- C4: `delete` removes every persisted task whose id `===` the given
id (all duplicates), keeping the rest in their relative order, and
persists only when something was removed; when nothing matched, the
persisted state is untouched and a warning is logged. -/
theorem c4_delete_all_matches (st : Storage) (id : JSVal) :
    TaskStore.loadTasks (TaskStore.delete st id).1 =
      (TaskStore.loadTasks st).filter (fun t => !strictEq t.id id) ∧
    ((∀ t ∈ TaskStore.loadTasks st, strictEq t.id id = false) →
      (TaskStore.delete st id).1 = st ∧
      JSLog.warn ("Task with id " ++ jsToString id ++ " not found for deletion.") ∈
        (TaskStore.delete st id).2) := by
  constructor
  · by_cases hc : ((TaskStore.load st).1.filter (fun t => !strictEq t.id id)).length =
      (TaskStore.load st).1.length
    · have hkeep : (TaskStore.load st).1.filter (fun t => !strictEq t.id id) =
          (TaskStore.load st).1 :=
        List.filter_eq_self.mpr (List.filter_length_eq_length.mp hc)
      have hdel : (TaskStore.delete st id).1 = st := by
        simp [TaskStore.delete, hc]
      rw [hdel]
      exact hkeep.symm
    · have hdel : (TaskStore.delete st id).1 =
          TaskStore.save ((TaskStore.load st).1.filter (fun t => !strictEq t.id id)) := by
        simp [TaskStore.delete, hc]
      rw [hdel]
      refine loadTasks_save _ (fun t ht => ?_)
      exact loadTasks_completed st t (List.mem_filter.mp ht).1
  · intro h
    have hkeep : (TaskStore.load st).1.filter (fun t => !strictEq t.id id) =
        (TaskStore.load st).1 :=
      List.filter_eq_self.mpr (fun t ht => by simpa using h t ht)
    have hdel : TaskStore.delete st id =
        (st, (TaskStore.load st).2 ++
          [JSLog.warn ("Task with id " ++ jsToString id ++ " not found for deletion.")]) := by
      simp [TaskStore.delete, hkeep]
    rw [hdel]
    simp

/-- C4 witness: the spec's example — from `[{id:1},{id:2}]`, `delete(1)`
leaves `[{id:2}]`; deleting id 1 again is a logged no-op. -/
theorem c4_delete_all_matches_witness :
    TaskStore.loadTasks
        (TaskStore.delete
          (TaskStore.save [Task.mk (.num 1) (.str "A") (.bool false),
                           Task.mk (.num 2) (.str "B") (.bool false)]) (JSVal.num 1)).1 =
      [Task.mk (.num 2) (.str "B") (.bool false)] ∧
    (TaskStore.delete (TaskStore.save [Task.mk (.num 2) (.str "B") (.bool false)])
        (JSVal.num 1)).1 =
      TaskStore.save [Task.mk (.num 2) (.str "B") (.bool false)] :=
  ⟨(c4_delete_all_matches
      (TaskStore.save [Task.mk (.num 1) (.str "A") (.bool false),
                       Task.mk (.num 2) (.str "B") (.bool false)]) (JSVal.num 1)).1.trans
    (by rfl),
   ((c4_delete_all_matches (TaskStore.save [Task.mk (.num 2) (.str "B") (.bool false)])
      (JSVal.num 1)).2 (by decide)).1⟩

/-- C5: `reorder` with both indices inside the freshly loaded collection
moves the element at `oldIndex` to position `newIndex` (a single-element
splice out and splice in, not a swap) and saves; any out-of-bounds index
makes it a logged no-op that never throws and leaves the persisted state
unchanged. -/
theorem c5_reorder_moves_or_noop (st : Storage) (oldIndex newIndex : Int) :
    (0 ≤ oldIndex → oldIndex < ((TaskStore.loadTasks st).length : Int) →
      0 ≤ newIndex → newIndex < ((TaskStore.loadTasks st).length : Int) →
      ∀ moved, (TaskStore.loadTasks st)[oldIndex.toNat]? = some moved →
        (TaskStore.reorder st oldIndex newIndex).1 =
          TaskStore.save (TaskStore.spliceInsert
            (TaskStore.spliceRemove (TaskStore.loadTasks st) oldIndex.toNat)
            newIndex.toNat moved) ∧
        TaskStore.loadTasks (TaskStore.reorder st oldIndex newIndex).1 =
          TaskStore.spliceInsert (TaskStore.spliceRemove (TaskStore.loadTasks st) oldIndex.toNat)
            newIndex.toNat moved) ∧
    ((oldIndex < 0 ∨ ((TaskStore.loadTasks st).length : Int) ≤ oldIndex ∨ newIndex < 0 ∨
        ((TaskStore.loadTasks st).length : Int) ≤ newIndex) →
      (TaskStore.reorder st oldIndex newIndex).1 = st ∧
      JSLog.warn "Invalid reorder indices:" ∈ (TaskStore.reorder st oldIndex newIndex).2) := by
  constructor
  · intro h1 h2 h3 h4 moved hmoved
    have hcond : ¬(oldIndex < 0 ∨ ((TaskStore.load st).1.length : Int) ≤ oldIndex ∨
        newIndex < 0 ∨ ((TaskStore.load st).1.length : Int) ≤ newIndex) := by
      have h2' : oldIndex < ((TaskStore.load st).1.length : Int) := h2
      have h4' : newIndex < ((TaskStore.load st).1.length : Int) := h4
      omega
    have hmoved' : (TaskStore.load st).1[oldIndex.toNat]? = some moved := hmoved
    have hre : TaskStore.reorder st oldIndex newIndex =
        (TaskStore.save (TaskStore.spliceInsert
            (TaskStore.spliceRemove (TaskStore.load st).1 oldIndex.toNat)
            newIndex.toNat moved), (TaskStore.load st).2) := by
      simp [TaskStore.reorder, hcond, hmoved']
    refine ⟨by rw [hre]; rfl, ?_⟩
    rw [hre]
    show TaskStore.loadTasks (TaskStore.save _) = _
    refine loadTasks_save _ (fun t ht => ?_)
    rcases mem_spliceInsert_remove ht with hmem | heq
    · exact loadTasks_completed st t hmem
    · subst heq
      exact loadTasks_completed st t (List.getElem?_mem hmoved')
  · intro h
    have h' : oldIndex < 0 ∨ ((TaskStore.load st).1.length : Int) ≤ oldIndex ∨ newIndex < 0 ∨
        ((TaskStore.load st).1.length : Int) ≤ newIndex := h
    have hre : TaskStore.reorder st oldIndex newIndex =
        (st, (TaskStore.load st).2 ++ [JSLog.warn "Invalid reorder indices:"]) := by
      simp [TaskStore.reorder, h']
    rw [hre]
    simp

/-- C5 witness: the spec's example — persisted `[A,B,C]`, `reorder(0,2)`
persists `[B,C,A]`; `reorder(5,0)` is a logged no-op. -/
theorem c5_reorder_moves_or_noop_witness :
    TaskStore.loadTasks
        (TaskStore.reorder
          (TaskStore.save [Task.mk (.num 1) (.str "A") (.bool false),
                           Task.mk (.num 2) (.str "B") (.bool false),
                           Task.mk (.num 3) (.str "C") (.bool false)]) 0 2).1 =
      [Task.mk (.num 2) (.str "B") (.bool false),
       Task.mk (.num 3) (.str "C") (.bool false),
       Task.mk (.num 1) (.str "A") (.bool false)] ∧
    (TaskStore.reorder
        (TaskStore.save [Task.mk (.num 1) (.str "A") (.bool false),
                         Task.mk (.num 2) (.str "B") (.bool false),
                         Task.mk (.num 3) (.str "C") (.bool false)]) 5 0).1 =
      TaskStore.save [Task.mk (.num 1) (.str "A") (.bool false),
                      Task.mk (.num 2) (.str "B") (.bool false),
                      Task.mk (.num 3) (.str "C") (.bool false)] :=
  ⟨(((c5_reorder_moves_or_noop
        (TaskStore.save [Task.mk (.num 1) (.str "A") (.bool false),
                         Task.mk (.num 2) (.str "B") (.bool false),
                         Task.mk (.num 3) (.str "C") (.bool false)]) 0 2).1
      (by decide) (by decide) (by decide) (by decide)
      (Task.mk (.num 1) (.str "A") (.bool false)) rfl).2).trans (by rfl),
   ((c5_reorder_moves_or_noop
        (TaskStore.save [Task.mk (.num 1) (.str "A") (.bool false),
                         Task.mk (.num 2) (.str "B") (.bool false),
                         Task.mk (.num 3) (.str "C") (.bool false)]) 5 0).2
      (by decide)).1⟩

theorem visibleStep_valid (f s : String) (t : Task) (h : isValidTask t = true) :
    visibleStep f s t = some (specVisible f s t) := by
  obtain ⟨i, x, c⟩ := t
  cases x <;> simp [isValidTask] at h
  obtain ⟨-, hc⟩ := h
  cases c <;> simp at hc
  simp [visibleStep, specVisible, matchesFilter, truthy]

/-- C7: for valid tasks, `renderTasks`' visible subset is exactly the
tasks of the collection, in collection order, satisfying the conjunction
of the filter predicate (`all` → every task, `active` → completed false,
`completed` → completed true) and the case-insensitive substring match of
the search term against the text; an empty search term matches every
string. -/
theorem c7_visible_subset (tasks : List Task) (filter searchTerm : String)
    (h : ∀ t ∈ tasks, isValidTask t = true) :
    visibleTasks tasks filter searchTerm =
      some (tasks.filter (specVisible filter searchTerm)) ∧
    ∀ s : String, strIncludes s "" = true := by
  constructor
  · induction tasks with
    | nil => rfl
    | cons t rest ih =>
      have hstep : visibleStep filter searchTerm t = some (specVisible filter searchTerm t) :=
        visibleStep_valid filter searchTerm t (h t (by simp))
      have ih' := ih (fun x hx => h x (by simp [hx]))
      cases hs : specVisible filter searchTerm t <;>
        simp [visibleTasks, hstep, ih', hs, List.filter_cons]
  · intro s
    have hnil : ("" : String).data = [] := rfl
    rw [strIncludes, containsCL.eq_def, hnil]
    simp [isPrefixCL]

/-- C7 witness: the spec's example — `Buy milk` (active) and `Walk dog`
(completed): filter `active` with search `milk` renders exactly the
first; `completed` with `dog` exactly the second; `all` with the empty
search renders both. -/
theorem c7_visible_subset_witness :
    visibleTasks [Task.mk (.num 1) (.str "Buy milk") (.bool false),
                  Task.mk (.num 2) (.str "Walk dog") (.bool true)] "active" "milk" =
      some [Task.mk (.num 1) (.str "Buy milk") (.bool false)] ∧
    visibleTasks [Task.mk (.num 1) (.str "Buy milk") (.bool false),
                  Task.mk (.num 2) (.str "Walk dog") (.bool true)] "completed" "dog" =
      some [Task.mk (.num 2) (.str "Walk dog") (.bool true)] ∧
    visibleTasks [Task.mk (.num 1) (.str "Buy milk") (.bool false),
                  Task.mk (.num 2) (.str "Walk dog") (.bool true)] "all" "" =
      some [Task.mk (.num 1) (.str "Buy milk") (.bool false),
            Task.mk (.num 2) (.str "Walk dog") (.bool true)] :=
  ⟨((c7_visible_subset [Task.mk (.num 1) (.str "Buy milk") (.bool false),
      Task.mk (.num 2) (.str "Walk dog") (.bool true)] "active" "milk" (by decide)).1).trans
    (by rfl),
   ((c7_visible_subset [Task.mk (.num 1) (.str "Buy milk") (.bool false),
      Task.mk (.num 2) (.str "Walk dog") (.bool true)] "completed" "dog" (by decide)).1).trans
    (by rfl),
   ((c7_visible_subset [Task.mk (.num 1) (.str "Buy milk") (.bool false),
      Task.mk (.num 2) (.str "Walk dog") (.bool true)] "all" "" (by decide)).1).trans
    (by rfl)⟩

/-- C8: the edit branch of the delegated handler — a cancelled prompt
(`null`) leaves the task, the persisted state, and the display untouched;
a non-cancelled result that is all whitespace after trimming is discarded
with no persistence and no re-render; otherwise the trimmed text replaces
the task's text, the change is persisted through `TaskStore.update`, and
the list is re-rendered. -/
theorem c8_edit_branches (st : Storage) (task : Task) :
    handleEdit st task none = ⟨task, st, false, []⟩ ∧
    (∀ s : String, jsTrim s = "" →
      handleEdit st task (some s) = ⟨task, st, false, []⟩) ∧
    (∀ s : String, jsTrim s ≠ "" →
      handleEdit st task (some s) =
        ⟨Task.mk task.id (.str (jsTrim s)) task.completed,
         (TaskStore.update st (Task.mk task.id (.str (jsTrim s)) task.completed)).1, true,
         (TaskStore.update st (Task.mk task.id (.str (jsTrim s)) task.completed)).2⟩) := by
  refine ⟨rfl, ?_, ?_⟩
  · intro s hs
    have ht : truthy (JSVal.str (jsTrim s)) = false := by
      rw [hs]; rfl
    simp [handleEdit, ht]
  · intro s hs
    have hne : (jsTrim s).isEmpty = false := by
      cases hb : (jsTrim s).isEmpty
      · rfl
      · exact absurd ((String.isEmpty_iff _).mp hb) hs
    have ht : truthy (JSVal.str (jsTrim s)) = true := by
      simp [truthy, hne]
    simp [handleEdit, ht]

/-- C8 witness: the branches at a concrete store and task — cancel,
whitespace-only input, and a real edit. -/
theorem c8_edit_branches_witness :
    handleEdit (TaskStore.save [Task.mk (.num 1) (.str "A") (.bool false)])
        (Task.mk (.num 1) (.str "A") (.bool false)) (some "   ") =
      ⟨Task.mk (.num 1) (.str "A") (.bool false),
       TaskStore.save [Task.mk (.num 1) (.str "A") (.bool false)], false, []⟩ ∧
    handleEdit (TaskStore.save [Task.mk (.num 1) (.str "A") (.bool false)])
        (Task.mk (.num 1) (.str "A") (.bool false)) (some "  new text ") =
      ⟨Task.mk (.num 1) (.str "new text") (.bool false),
       (TaskStore.update (TaskStore.save [Task.mk (.num 1) (.str "A") (.bool false)])
          (Task.mk (.num 1) (.str "new text") (.bool false))).1, true,
       (TaskStore.update (TaskStore.save [Task.mk (.num 1) (.str "A") (.bool false)])
          (Task.mk (.num 1) (.str "new text") (.bool false))).2⟩ :=
  ⟨(c8_edit_branches (TaskStore.save [Task.mk (.num 1) (.str "A") (.bool false)])
      (Task.mk (.num 1) (.str "A") (.bool false))).2.1 "   " (by decide),
   ((c8_edit_branches (TaskStore.save [Task.mk (.num 1) (.str "A") (.bool false)])
      (Task.mk (.num 1) (.str "A") (.bool false))).2.2 "  new text " (by decide)).trans
    (by rfl)⟩

end Todo
